import Mathlib

/-!
Verification development for the DynamicWatchExpression watcher engine.

Shallow embedding of:
* `src/pwt/dynamic_watch_expression/plugin.py` — `PluginBase.execute`,
  `PluginBase.assess_strategy`, the per-action state (`result`, `exception`,
  `strategy`) set up by `PluginBase.create_plugin`;
* `src/pwt/dynamic_watch_expression/expression.py` — the lark grammar,
  `_EvalTransformer` set-algebra semantics and `Expression.evaluate`;
* `src/pwt/dynamic_watch_expression/core.py` — `_get_context`,
  `_watcher_task`, `_execute_plugins`, `_evaluate_expression`.

Python sets of result strings are modelled as `Finset String`; a raised
Python exception is modelled as an `Except`-error carrying a message; the
mutable per-plugin state is threaded explicitly.
-/

namespace DWE

/-- The chain-strategy values of `ACTION_STRATEGY_TYPE`
(`continue`, `success_stop`, `failure_stop`); `continue` is a Lean keyword,
hence the trailing apostrophe. -/
inductive Strategy
| continue'
| success_stop
| failure_stop
deriving DecidableEq, Repr

/-- The observable behaviour of one call of a plugin's `_execute`:
it either returns a list of result strings or raises an exception
(modelled by its message). -/
inductive Outcome
| ok (vals : List String)
| err (e : String)
deriving DecidableEq, Repr

/-- The per-action mutable state set up by `PluginBase.create_plugin`:
the chain strategy (`None` when the config supplies none —
`ACTION_STRATEGY_DEFAULT = None`), the stored `result` and the stored
`exception`. -/
structure PluginState where
  strategy : Option Strategy
  result : Option (List String)
  exception : Option String
deriving DecidableEq, Repr

/-- `PluginBase.execute`: reset `result` and `exception` to `None`, run
`_execute`; on return store the result, on any exception store the
exception. -/
def executeStep (o : Outcome) (p : PluginState) : PluginState :=
  match o with
  | .ok vals => { p with result := some vals, exception := none }
  | .err e => { p with result := none, exception := some e }

/-- `PluginBase.assess_strategy`: `continue` → keep going;
`success_stop` → keep going only when `exception is not None`;
`failure_stop` → keep going only when `exception is None`;
any other value (in particular `None`) falls through to `False`. -/
def assess_strategy (strategy : Option Strategy) (exception : Option String) : Bool :=
  match strategy with
  | some .continue' => true
  | some .success_stop => exception.isSome
  | some .failure_stop => exception.isNone
  | _ => false

/-- The loop of `core._execute_plugins`: run each plugin in order via
`plugin.execute`, and `break` as soon as `assess_strategy` returns falsy.
Each input pair is a plugin's state together with what its `_execute`
would do this tick; each output pair is the plugin's state after the loop
together with whether `plugin.execute` was actually invoked. A plugin the
loop never reaches keeps its state unchanged. -/
def execute_plugins : List (PluginState × Outcome) → List (PluginState × Bool)
  | [] => []
  | (p, o) :: rest =>
    let p' := executeStep o p
    if assess_strategy p'.strategy p'.exception then
      (p', true) :: execute_plugins rest
    else
      (p', true) :: rest.map (fun q => (q.1, false))

/-- The plugin states after `core._execute_plugins` ran over the list. -/
def run_plugins (l : List (PluginState × Outcome)) : List PluginState :=
  (execute_plugins l).map Prod.fst

/-! ### The expression language (`expression.py`) -/

/-- The `calculation` level of the lark grammar `_GRAMMAR`: `empty`,
`VARIABLE`, and the four left-associative set operators
`&`, `|`, `-`, `^`. -/
inductive Calc
| empty
| var (name : String)
| intersection (a b : Calc)
| union (a b : Calc)
| difference (a b : Calc)
| symmetric_difference (a b : Calc)
deriving DecidableEq, Repr

/-- The `comparison` level of the grammar: exactly one comparison operator
(`==`, `!=`, `<=`, `>=`, `<`, `>`) between two calculations. -/
inductive Comparison
| equal (a b : Calc)
| not_equal (a b : Calc)
| subset (a b : Calc)
| superset (a b : Calc)
| proper_subset (a b : Calc)
| proper_superset (a b : Calc)
deriving DecidableEq, Repr

/-- The Python value that `Expression.evaluate` receives as `variables`.
`expression.py` declares it a `Mapping[str, Iterable]`, but
`core._evaluate_expression` actually passes a plain `list`; both shapes
occur in the repository, so both are modelled. -/
inductive PyVars
| dict (m : String → Option (List String))
| pylist (xs : List (List String))

/-- `_EvalTransformer.VARIABLE`: `set(self._variables.get(token, set()))`.
On a dict this is the stored iterable deduplicated into a set, defaulting
to the empty set when the name is absent; on a Python `list` the
attribute lookup `.get` raises `AttributeError`. -/
def vars_get : PyVars → String → Except String (Finset String)
  | .dict m, name => .ok ((m name).getD []).toFinset
  | .pylist _, _ => .error ("AttributeError: list object has no attribute get")

/-- The set-algebra callbacks of `_EvalTransformer` over a `calculation`
subtree (`EMPTY`, `VARIABLE`, `intersection`, `union`, `difference`,
`symmetric_difference`; `^` is the union of the two differences). -/
def evalCalc (vars : PyVars) : Calc → Except String (Finset String)
  | .empty => .ok ∅
  | .var name => vars_get vars name
  | .intersection a b => do pure ((← evalCalc vars a) ∩ (← evalCalc vars b))
  | .union a b => do pure ((← evalCalc vars a) ∪ (← evalCalc vars b))
  | .difference a b => do pure ((← evalCalc vars a) \ (← evalCalc vars b))
  | .symmetric_difference a b => do
    let x ← evalCalc vars a
    let y ← evalCalc vars b
    pure ((x \ y) ∪ (y \ x))

/-- `Expression.evaluate`: transform the parse tree with
`_EvalTransformer`, producing the boolean of the root comparison
(`==`, `!=`, `<=`, `>=`, `<`, `>` are the standard finite-set
relations). An exception raised inside a callback propagates out. -/
def evaluate (vars : PyVars) : Comparison → Except String Bool
  | .equal a b => do pure (decide ((← evalCalc vars a) = (← evalCalc vars b)))
  | .not_equal a b => do pure (decide ((← evalCalc vars a) ≠ (← evalCalc vars b)))
  | .subset a b => do pure (decide ((← evalCalc vars a) ⊆ (← evalCalc vars b)))
  | .superset a b => do pure (decide ((← evalCalc vars b) ⊆ (← evalCalc vars a)))
  | .proper_subset a b => do pure (decide ((← evalCalc vars a) ⊂ (← evalCalc vars b)))
  | .proper_superset a b => do pure (decide ((← evalCalc vars b) ⊂ (← evalCalc vars a)))

/-! ### The watcher state machine (`core.py`) -/

/-- The list comprehension of `core._evaluate_expression` line 177:
`[plugin.result or [] for plugin in context.fetches]`. -/
def variables_list (fetches : List PluginState) : List (List String) :=
  fetches.map (fun plugin => plugin.result.getD [])

/-- `core._evaluate_expression`: build the per-plugin result list, pass it
— as a Python `list`, not a mapping — to `Expression.evaluate`, and
return `False` when any exception is raised. -/
def evaluate_expression (expr : Comparison) (fetches : List PluginState) : Bool :=
  match evaluate (PyVars.pylist (variables_list fetches)) expr with
  | .ok r => r
  | .error _ => false

/-- The transition of `core._watcher_task` lines 131-140 on the attempts
counter, given the value `_evaluate_expression` returned: the new
attempts value paired with whether the executes pass fired. -/
def watcher_task_step (tolerance attempts : Nat) (exprResult : Bool) : Nat × Bool :=
  if !exprResult then (0, false)
  else if attempts < tolerance then (attempts + 1, false)
  else (0, true)

/-- The watcher state owned by one `Context`
(`core._get_context` / `entitiy.Context`), restricted to the fields the
tick logic reads and writes. -/
structure WatchContext where
  tolerance : Nat
  expression : Comparison
  fetches : List PluginState
  executes : List PluginState
  attempts : Nat
deriving DecidableEq, Repr

/-- `core._get_context`: a fresh context starts with `attempts = 0`. -/
def get_context (tolerance : Nat) (expression : Comparison)
    (fetches executes : List PluginState) : WatchContext :=
  { tolerance, expression, fetches, executes, attempts := 0 }

/-- One full tick of `core._watcher_task`: run the fetches through
`_execute_plugins`, evaluate the expression over their stored results,
then branch: `False` → attempts := 0; `True` with
`attempts < tolerance` → attempts += 1; otherwise run the executes
through `_execute_plugins` and set attempts := 0. `fetchOuts` and
`execOuts` supply what each plugin's `_execute` would do this tick. -/
def watcher_task (ctx : WatchContext) (fetchOuts execOuts : List Outcome) :
    WatchContext :=
  let fetches' := run_plugins (ctx.fetches.zip fetchOuts)
  let step := watcher_task_step ctx.tolerance ctx.attempts
    (evaluate_expression ctx.expression fetches')
  if step.2 then
    { ctx with fetches := fetches',
               executes := run_plugins (ctx.executes.zip execOuts),
               attempts := step.1 }
  else
    { ctx with fetches := fetches', attempts := step.1 }

/-- The attempts/fired trace of successive ticks, given the sequence of
expression results: entry `i` is the attempts value after tick `i`
together with whether that tick fired the executes pass. -/
def watcher_trace (tolerance attempts : Nat) : List Bool → List (Nat × Bool)
  | [] => []
  | b :: bs =>
    let step := watcher_task_step tolerance attempts b
    step :: watcher_trace tolerance step.1 bs

/-! ### Retry wrapper -/

/-- The record of one wrapped invocation: how many times the underlying
call was invoked, the delays elapsed between consecutive attempts, and
the outcome of the final attempt. -/
structure RetryRun where
  invocations : Nat
  delays : List Rat
  final : Outcome
deriving DecidableEq, Repr

/-- Modelled from the spec: `pwt.utils.retry.SimpleRetry`
(module `pwt/utils/retry.py` is not among the sources here; spec §4.4:
"On any failure (including timeout), retries up to `retries` additional
times with a fixed `delay` between attempts; total attempts =
`retries + 1`"). `call i` is the behaviour of the underlying call on
attempt `i`; `fuel` counts the retries still allowed. -/
def retry_from (call : Nat → Outcome) (delay : Rat) (i : Nat) : Nat → RetryRun
  | 0 => ⟨1, [], call i⟩
  | fuel + 1 =>
    match call i with
    | .ok vals => ⟨1, [], .ok vals⟩
    | .err _ =>
      let rest := retry_from call delay (i + 1) fuel
      ⟨rest.invocations + 1, delay :: rest.delays, rest.final⟩

/-- Modelled from the spec: the wrapped invocation installed by
`PluginBase.create_plugin` line 138,
`SimpleRetry(self.execute, delay=delay, retries=retries)` — start at
attempt 0 with `retries` retries left. -/
def simple_retry (call : Nat → Outcome) (delay : Rat) (retries : Nat) : RetryRun :=
  retry_from call delay 0 retries

/-! ### Helper lemmas -/

theorem executeStep_strategy (o : Outcome) (p : PluginState) :
    (executeStep o p).strategy = p.strategy := by
  cases o <;> rfl

theorem watcher_task_attempts (ctx : WatchContext) (fetchOuts execOuts : List Outcome) :
    (watcher_task ctx fetchOuts execOuts).attempts =
      (watcher_task_step ctx.tolerance ctx.attempts
        (evaluate_expression ctx.expression
          (run_plugins (ctx.fetches.zip fetchOuts)))).1 := by
  unfold watcher_task
  dsimp only
  split <;> rfl

theorem watcher_task_step_le (t a : Nat) (b : Bool) (h : a ≤ t) :
    (watcher_task_step t a b).1 ≤ t := by
  unfold watcher_task_step
  split
  · exact Nat.zero_le t
  · split
    · omega
    · exact Nat.zero_le t

theorem evalCalc_dict_ok (m : String → Option (List String)) (c : Calc) :
    ∃ s, evalCalc (PyVars.dict m) c = .ok s := by
  induction c with
  | empty => exact ⟨∅, rfl⟩
  | var name => exact ⟨((m name).getD []).toFinset, rfl⟩
  | intersection a b iha ihb =>
    obtain ⟨s, hs⟩ := iha
    obtain ⟨t, ht⟩ := ihb
    exact ⟨s ∩ t, by rw [evalCalc, hs, ht]; rfl⟩
  | union a b iha ihb =>
    obtain ⟨s, hs⟩ := iha
    obtain ⟨t, ht⟩ := ihb
    exact ⟨s ∪ t, by rw [evalCalc, hs, ht]; rfl⟩
  | difference a b iha ihb =>
    obtain ⟨s, hs⟩ := iha
    obtain ⟨t, ht⟩ := ihb
    exact ⟨s \ t, by rw [evalCalc, hs, ht]; rfl⟩
  | symmetric_difference a b iha ihb =>
    obtain ⟨s, hs⟩ := iha
    obtain ⟨t, ht⟩ := ihb
    exact ⟨(s \ t) ∪ (t \ s), by rw [evalCalc, hs, ht]; rfl⟩

theorem evaluate_dict_ok (m : String → Option (List String)) (e : Comparison) :
    ∃ b, evaluate (PyVars.dict m) e = .ok b := by
  cases e with
  | equal a b =>
    obtain ⟨s, hs⟩ := evalCalc_dict_ok m a
    obtain ⟨t, ht⟩ := evalCalc_dict_ok m b
    exact ⟨decide (s = t), by rw [evaluate, hs, ht]; rfl⟩
  | not_equal a b =>
    obtain ⟨s, hs⟩ := evalCalc_dict_ok m a
    obtain ⟨t, ht⟩ := evalCalc_dict_ok m b
    exact ⟨decide (s ≠ t), by rw [evaluate, hs, ht]; rfl⟩
  | subset a b =>
    obtain ⟨s, hs⟩ := evalCalc_dict_ok m a
    obtain ⟨t, ht⟩ := evalCalc_dict_ok m b
    exact ⟨decide (s ⊆ t), by rw [evaluate, hs, ht]; rfl⟩
  | superset a b =>
    obtain ⟨s, hs⟩ := evalCalc_dict_ok m a
    obtain ⟨t, ht⟩ := evalCalc_dict_ok m b
    exact ⟨decide (t ⊆ s), by rw [evaluate, hs, ht]; rfl⟩
  | proper_subset a b =>
    obtain ⟨s, hs⟩ := evalCalc_dict_ok m a
    obtain ⟨t, ht⟩ := evalCalc_dict_ok m b
    exact ⟨decide (s ⊂ t), by rw [evaluate, hs, ht]; rfl⟩
  | proper_superset a b =>
    obtain ⟨s, hs⟩ := evalCalc_dict_ok m a
    obtain ⟨t, ht⟩ := evalCalc_dict_ok m b
    exact ⟨decide (t ⊂ s), by rw [evaluate, hs, ht]; rfl⟩

theorem execute_plugins_state (l : List (PluginState × Outcome)) :
    ∀ (j : Nat) (p : PluginState) (b : Bool), (execute_plugins l)[j]? = some (p, b) →
      if b then ∃ q, l[j]? = some q ∧ p = executeStep q.2 q.1
      else ∃ o, l[j]? = some (p, o) := by
  induction l with
  | nil => intro j p b h; simp [execute_plugins] at h
  | cons hd rest ih =>
    obtain ⟨q, o⟩ := hd
    intro j p b h
    rw [execute_plugins] at h
    by_cases hassess :
        assess_strategy (executeStep o q).strategy (executeStep o q).exception = true
    · rw [if_pos hassess] at h
      match j with
      | 0 =>
        rw [List.getElem?_cons_zero] at h
        obtain ⟨hp, hb⟩ := Prod.mk.injEq .. ▸ Option.some.inj h
        subst hp; subst hb
        exact ⟨(q, o), by simp⟩
      | j + 1 =>
        rw [List.getElem?_cons_succ] at h
        have := ih j p b h
        simpa using this
    · rw [if_neg hassess] at h
      match j with
      | 0 =>
        rw [List.getElem?_cons_zero] at h
        obtain ⟨hp, hb⟩ := Prod.mk.injEq .. ▸ Option.some.inj h
        subst hp; subst hb
        exact ⟨(q, o), by simp⟩
      | j + 1 =>
        rw [List.getElem?_cons_succ, List.getElem?_map] at h
        match hr : rest[j]? with
        | none => rw [hr] at h; simp at h
        | some r =>
          rw [hr] at h
          obtain ⟨hp, hb⟩ := Prod.mk.injEq .. ▸ Option.some.inj h
          subst hp; subst hb
          exact ⟨r.2, by simpa using hr⟩

theorem exec_continue_all (l : List (PluginState × Outcome))
    (hs : ∀ q ∈ l, (Prod.fst q).strategy = some Strategy.continue') :
    ∀ x ∈ execute_plugins l, x.2 = true := by
  induction l with
  | nil => intro x hx; simp [execute_plugins] at hx
  | cons hd rest ih =>
    obtain ⟨p, o⟩ := hd
    have hstrat : (executeStep o p).strategy = some Strategy.continue' := by
      rw [executeStep_strategy]
      exact hs (p, o) (List.mem_cons_self _ _)
    intro x hx
    rw [execute_plugins] at hx
    rw [if_pos (by rw [hstrat]; rfl)] at hx
    rcases List.mem_cons.mp hx with hx | hx
    · rw [hx]
    · exact ih (fun q hq => hs q (List.mem_cons_of_mem _ hq)) x hx

theorem exec_success_stop_later (l : List (PluginState × Outcome))
    (hs : ∀ q ∈ l, (Prod.fst q).strategy = some Strategy.success_stop) :
    ∀ (i j : Nat) (pi : PluginState) (bi : Bool) (pj : PluginState), i < j →
      (execute_plugins l)[i]? = some (pi, bi) →
      (execute_plugins l)[j]? = some (pj, true) →
      ∃ e, pi.exception = some e := by
  induction l with
  | nil => intro i j pi bi pj hij hi hj; simp [execute_plugins] at hi
  | cons hd rest ih =>
    obtain ⟨p, o⟩ := hd
    have hstrat : (executeStep o p).strategy = some Strategy.success_stop := by
      rw [executeStep_strategy]
      exact hs (p, o) (List.mem_cons_self _ _)
    intro i j pi bi pj hij hi hj
    rw [execute_plugins] at hi hj
    by_cases hexc : (executeStep o p).exception.isSome
    · rw [if_pos (by rw [hstrat]; exact hexc)] at hi hj
      match i with
      | 0 =>
        rw [List.getElem?_cons_zero] at hi
        obtain ⟨hp, _⟩ := Prod.mk.injEq .. ▸ Option.some.inj hi
        subst hp
        exact Option.isSome_iff_exists.mp hexc
      | i + 1 =>
        match j with
        | 0 => omega
        | j + 1 =>
          rw [List.getElem?_cons_succ] at hi hj
          exact ih (fun q hq => hs q (List.mem_cons_of_mem _ hq)) i j pi bi pj
            (by omega) hi hj
    · rw [if_neg (by rw [hstrat]; exact hexc)] at hj
      match j with
      | 0 => omega
      | j + 1 =>
        rw [List.getElem?_cons_succ, List.getElem?_map] at hj
        match hr : rest[j]? with
        | none => rw [hr] at hj; simp at hj
        | some r =>
          rw [hr] at hj
          obtain ⟨_, hb⟩ := Prod.mk.injEq .. ▸ Option.some.inj hj
          exact absurd hb.symm (by simp)

theorem exec_failure_stop_later (l : List (PluginState × Outcome))
    (hs : ∀ q ∈ l, (Prod.fst q).strategy = some Strategy.failure_stop) :
    ∀ (i j : Nat) (pi : PluginState) (bi : Bool) (pj : PluginState), i < j →
      (execute_plugins l)[i]? = some (pi, bi) →
      (execute_plugins l)[j]? = some (pj, true) →
      pi.exception = none := by
  induction l with
  | nil => intro i j pi bi pj hij hi hj; simp [execute_plugins] at hi
  | cons hd rest ih =>
    obtain ⟨p, o⟩ := hd
    have hstrat : (executeStep o p).strategy = some Strategy.failure_stop := by
      rw [executeStep_strategy]
      exact hs (p, o) (List.mem_cons_self _ _)
    intro i j pi bi pj hij hi hj
    rw [execute_plugins] at hi hj
    by_cases hexc : (executeStep o p).exception.isNone
    · rw [if_pos (by rw [hstrat]; exact hexc)] at hi hj
      match i with
      | 0 =>
        rw [List.getElem?_cons_zero] at hi
        obtain ⟨hp, _⟩ := Prod.mk.injEq .. ▸ Option.some.inj hi
        subst hp
        exact Option.isNone_iff_eq_none.mp hexc
      | i + 1 =>
        match j with
        | 0 => omega
        | j + 1 =>
          rw [List.getElem?_cons_succ] at hi hj
          exact ih (fun q hq => hs q (List.mem_cons_of_mem _ hq)) i j pi bi pj
            (by omega) hi hj
    · rw [if_neg (by rw [hstrat]; exact hexc)] at hj
      match j with
      | 0 => omega
      | j + 1 =>
        rw [List.getElem?_cons_succ, List.getElem?_map] at hj
        match hr : rest[j]? with
        | none => rw [hr] at hj; simp at hj
        | some r =>
          rw [hr] at hj
          obtain ⟨_, hb⟩ := Prod.mk.injEq .. ▸ Option.some.inj hj
          exact absurd hb.symm (by simp)

theorem retry_from_all_fail (call : Nat → Outcome) (d : Rat)
    (h : ∀ i, ∃ e, call i = Outcome.err e) :
    ∀ (n i : Nat), retry_from call d i n =
      ⟨n + 1, List.replicate n d, call (i + n)⟩ := by
  intro n
  induction n with
  | zero => intro i; simp [retry_from]
  | succ n ihn =>
    intro i
    obtain ⟨e, he⟩ := h i
    rw [retry_from, he, ihn (i + 1)]
    have harg : i + 1 + n = i + (n + 1) := by omega
    rw [harg]
    rfl

/-! ### Concrete instances used by witnesses and evidence theorems -/

/-- A fetch plugin holding a stored result, chain strategy `continue`. -/
def pluginGrp : PluginState :=
  { strategy := some Strategy.continue', result := some [("1")], exception := none }

/-- The spec-intended variables mapping for `pluginGrp` under a fetch
group named `grp`. -/
def mappingGrp : String → Option (List String) :=
  fun name => if name = ("grp") then some [("1")] else none

/-- A watcher context mid-stream: tolerance 2, attempts 1, two fetch
actions with chain strategy `continue`, expression `empty == empty`. -/
def ctxC3 : WatchContext :=
  { tolerance := 2, expression := Comparison.equal Calc.empty Calc.empty,
    fetches := [{ strategy := some Strategy.continue', result := none, exception := none },
                { strategy := some Strategy.continue', result := none, exception := none }],
    executes := [], attempts := 1 }

/-- A fresh watcher context: tolerance 1, attempts 0, expression
`empty == empty`, no plugins. -/
def ctxC2 : WatchContext :=
  get_context 1 (Comparison.equal Calc.empty Calc.empty) [] []

/-- A watcher context with tolerance 2 and attempts 1. -/
def ctxC8 : WatchContext :=
  { tolerance := 2, expression := Comparison.equal Calc.empty Calc.empty,
    fetches := [], executes := [], attempts := 1 }

/-- Three `success_stop` actions: the first fails, the second succeeds,
the third would succeed but is never reached. -/
def chainC5 : List (PluginState × Outcome) :=
  [({ strategy := some Strategy.success_stop, result := none, exception := none },
    Outcome.err ("e1")),
   ({ strategy := some Strategy.success_stop, result := none, exception := none },
    Outcome.ok ([("v")])),
   ({ strategy := some Strategy.success_stop, result := none, exception := none },
    Outcome.ok ([("w")]))]

/-- A fetch plugin carrying the result of an earlier tick. -/
def pluginStale : PluginState :=
  { strategy := some Strategy.continue', result := some [("old")], exception := none }

/-- A strategy-less first action (stops the loop after itself, since
`assess_strategy` falls through to `False` on `None`) followed by
`pluginStale`, which the loop therefore never reaches this tick. -/
def chainC10 : List (PluginState × Outcome) :=
  [({ strategy := none, result := none, exception := none }, Outcome.ok ([("a")])),
   (pluginStale, Outcome.err ("x"))]

/-! ### The claims -/

/-- C1: the claim says `_evaluate_expression` calls the Expression
Evaluator with a mapping keyed by fetch group name. The code instead
passes the positional list `[plugin.result or [] for plugin in
context.fetches]`; every variable lookup then raises (`list` has no
`.get`), the exception is caught and the whole evaluation is reported as
`False` — so `grp == grp`, which the claim's mapping semantics makes
`true`, comes out `false`. The second conjunct shows the evaluator
itself, fed the mapping the claim describes, returns `true`. -/
theorem C1_variables_not_keyed_by_group :
    evaluate_expression (Comparison.equal (Calc.var ("grp")) (Calc.var ("grp")))
      [pluginGrp] = false ∧
    evaluate (PyVars.dict mappingGrp)
      (Comparison.equal (Calc.var ("grp")) (Calc.var ("grp"))) = Except.ok true :=
  ⟨by decide, rfl⟩

/-- C2: one tick of `_watcher_task` — expression `false` resets attempts
to 0 and leaves the executes untouched; `true` with
`attempts < tolerance` increments attempts and leaves the executes
untouched; `true` with `attempts ≥ tolerance` runs the execute plugins
and resets attempts to 0. -/
theorem C2_tick_transition (ctx : WatchContext) (fetchOuts execOuts : List Outcome) :
    (evaluate_expression ctx.expression (run_plugins (ctx.fetches.zip fetchOuts)) = false →
      watcher_task ctx fetchOuts execOuts =
        { ctx with fetches := run_plugins (ctx.fetches.zip fetchOuts),
                   attempts := 0 }) ∧
    (evaluate_expression ctx.expression (run_plugins (ctx.fetches.zip fetchOuts)) = true →
      ctx.attempts < ctx.tolerance →
      watcher_task ctx fetchOuts execOuts =
        { ctx with fetches := run_plugins (ctx.fetches.zip fetchOuts),
                   attempts := ctx.attempts + 1 }) ∧
    (evaluate_expression ctx.expression (run_plugins (ctx.fetches.zip fetchOuts)) = true →
      ctx.tolerance ≤ ctx.attempts →
      watcher_task ctx fetchOuts execOuts =
        { ctx with fetches := run_plugins (ctx.fetches.zip fetchOuts),
                   executes := run_plugins (ctx.executes.zip execOuts),
                   attempts := 0 }) := by
  refine ⟨fun h => ?_, fun h hlt => ?_, fun h hge => ?_⟩ <;>
    unfold watcher_task watcher_task_step <;> dsimp only <;> rw [h]
  · simp
  · simp [hlt]
  · simp [Nat.not_lt.mpr hge]

/-- C2 witness: a fresh watcher (tolerance 1, attempts 0) whose
expression evaluates `true` increments attempts to 1. -/
theorem C2_tick_transition_witness :
    watcher_task ctxC2 [] [] =
      { ctxC2 with fetches := run_plugins (ctxC2.fetches.zip []),
                   attempts := ctxC2.attempts + 1 } :=
  (C2_tick_transition ctxC2 [] []).2.1 (by decide) (by decide)
/-- C3: the claim says a finished group's error strategy (`skip`,
`reset`, `fetch_reset`, `execute_reset`) governs cross-group behaviour —
under `reset` the remaining groups of the tick are abandoned and attempts
forced to 0. The engine's runner (`core._execute_plugins`) has no notion
of groups or error strategies at all: with the first fetch action
failing, the next action is still invoked (second conjunct, flag `true`
and its state overwritten with the fresh outcome), and the tick still
increments attempts from 1 to 2 instead of forcing 0 (first conjunct). -/
theorem C3_error_strategy_never_consulted :
    watcher_task ctxC3 [Outcome.err ("boom"), Outcome.ok ([("new")])] [] =
      { ctxC3 with
        fetches := [{ strategy := some Strategy.continue', result := none,
                      exception := some ("boom") },
                    { strategy := some Strategy.continue', result := some [("new")],
                      exception := none }],
        attempts := 2 } ∧
    execute_plugins (ctxC3.fetches.zip [Outcome.err ("boom"), Outcome.ok ([("new")])]) =
      [({ strategy := some Strategy.continue', result := none,
          exception := some ("boom") }, true),
       ({ strategy := some Strategy.continue', result := some [("new")],
          exception := none }, true)] := by
  exact ⟨by decide, by decide⟩

/-- C4: the Retry+Timeout wrapper (spec-modelled `SimpleRetry`) on a call
that fails on every attempt performs exactly `retries + 1` invocations,
with the fixed `delay` elapsing between each pair of consecutive attempts
(`retries` gaps), and its final outcome is the last attempt's failure,
which `PluginBase.execute` records on the action's result record as a
captured exception with no result. -/
theorem C4_retry_contract (call : Nat → Outcome) (delay : Rat) (retries : Nat)
    (p : PluginState) (h : ∀ i, ∃ e, call i = Outcome.err e) :
    (simple_retry call delay retries).invocations = retries + 1 ∧
    (simple_retry call delay retries).delays = List.replicate retries delay ∧
    (simple_retry call delay retries).final = call retries ∧
    ∃ e, call retries = Outcome.err e ∧
      (executeStep (simple_retry call delay retries).final p).exception = some e ∧
      (executeStep (simple_retry call delay retries).final p).result = none := by
  have hrun : simple_retry call delay retries =
      ⟨retries + 1, List.replicate retries delay, call retries⟩ := by
    rw [simple_retry, retry_from_all_fail call delay h retries 0, Nat.zero_add]
  obtain ⟨e, he⟩ := h retries
  refine ⟨by rw [hrun], by rw [hrun], by rw [hrun], e, he, ?_, ?_⟩ <;>
    rw [hrun] <;> dsimp only <;> rw [he] <;> rfl

/-- C4 witness: `retries = 2` with an always-failing call gives exactly
3 invocations, two delays of 1 second, and the last failure recorded. -/
theorem C4_retry_contract_witness :
    (simple_retry (fun _ => Outcome.err ("boom")) 1 2).invocations = 2 + 1 ∧
    (simple_retry (fun _ => Outcome.err ("boom")) 1 2).delays = List.replicate 2 1 ∧
    (simple_retry (fun _ => Outcome.err ("boom")) 1 2).final =
      (fun _ => Outcome.err ("boom")) 2 ∧
    ∃ e, (fun _ => Outcome.err ("boom")) 2 = Outcome.err e ∧
      (executeStep (simple_retry (fun _ => Outcome.err ("boom")) 1 2).final
        { strategy := none, result := none, exception := none }).exception = some e ∧
      (executeStep (simple_retry (fun _ => Outcome.err ("boom")) 1 2).final
        { strategy := none, result := none, exception := none }).result = none :=
  C4_retry_contract (fun _ => Outcome.err ("boom")) 1 2
    { strategy := none, result := none, exception := none }
    (fun _ => ⟨("boom"), rfl⟩)
/-- C5: the chain strategies over an ordered action list. `continue`:
every action is invoked. `success_stop`: an action is invoked past an
earlier one only when the earlier one ended in error — so nothing after
the first error-free action runs. `failure_stop`: an action is invoked
past an earlier one only when the earlier one succeeded — so nothing
after the first failing action runs. -/
theorem C5_chain_strategies (l : List (PluginState × Outcome)) :
    ((∀ q ∈ l, (Prod.fst q).strategy = some Strategy.continue') →
      ∀ x ∈ execute_plugins l, x.2 = true) ∧
    ((∀ q ∈ l, (Prod.fst q).strategy = some Strategy.success_stop) →
      ∀ (i j : Nat) (pi : PluginState) (bi : Bool) (pj : PluginState) (bj : Bool),
        i < j →
        (execute_plugins l)[i]? = some (pi, bi) →
        (execute_plugins l)[j]? = some (pj, bj) → bj = true →
        ∃ e, pi.exception = some e) ∧
    ((∀ q ∈ l, (Prod.fst q).strategy = some Strategy.failure_stop) →
      ∀ (i j : Nat) (pi : PluginState) (bi : Bool) (pj : PluginState) (bj : Bool),
        i < j →
        (execute_plugins l)[i]? = some (pi, bi) →
        (execute_plugins l)[j]? = some (pj, bj) → bj = true →
        pi.exception = none) := by
  refine ⟨exec_continue_all l, ?_, ?_⟩
  · intro hs i j pi bi pj bj hij hi hj hbj
    subst hbj
    exact exec_success_stop_later l hs i j pi bi pj hij hi hj
  · intro hs i j pi bi pj bj hij hi hj hbj
    subst hbj
    exact exec_failure_stop_later l hs i j pi bi pj hij hi hj

/-- C5 witness: in a `success_stop` chain [fail, succeed, succeed], the
second action is invoked, so the first must have ended in error. -/
theorem C5_chain_strategies_witness :
    ∃ e, ({ strategy := some Strategy.success_stop, result := none,
            exception := some ("e1") } : PluginState).exception = some e :=
  (C5_chain_strategies chainC5).2.1 (by decide) 0 1
    { strategy := some Strategy.success_stop, result := none, exception := some ("e1") }
    true
    { strategy := some Strategy.success_stop, result := some [("v")], exception := none }
    true
    (by decide) (by decide) (by decide) rfl

/-- C6: `PluginBase.execute` never raises past its boundary — whatever
the underlying `_execute` does, the action's record afterwards holds
either a result with no exception (on return) or a captured exception
with no result (on raise), never both. -/
theorem C6_execute_records_outcome (o : Outcome) (p : PluginState) :
    (∃ vals, o = Outcome.ok vals ∧ (executeStep o p).result = some vals ∧
      (executeStep o p).exception = none) ∨
    (∃ e, o = Outcome.err e ∧ (executeStep o p).exception = some e ∧
      (executeStep o p).result = none) := by
  cases o with
  | ok vals => exact Or.inl ⟨vals, rfl, rfl, rfl⟩
  | err e => exact Or.inr ⟨e, rfl, rfl, rfl⟩

/-- C7 counterexample: with tolerance 2 and expression results
[false, true, true, true], the claimed trace — attempts [0, 1, 0, 1]
with the executes firing on the third tick — is not what the code
produces. -/
theorem C7_trace_counterexample :
    watcher_trace 2 0 [false, true, true, true] ≠
      [(0, false), (1, false), (0, true), (1, false)] := by decide

/-- C7 amended: the trace is attempts [0, 1, 2, 0], the executes fire
exactly once, on the fourth tick — the third consecutive `true` tick —
and attempts is reset to 0 by that firing tick. -/
theorem C7_trace_amended :
    watcher_trace 2 0 [false, true, true, true] =
      [(0, false), (1, false), (2, false), (0, true)] ∧
    ((watcher_trace 2 0 [false, true, true, true]).map Prod.snd).count true = 1 := by
  decide

/-- C8: a fresh context starts at attempts 0; a tick keeps
`attempts ≤ tolerance`; expression `false` resets attempts to 0; a tick
that fires the executes ends with attempts 0. (`0 ≤ attempts` holds by
the `Nat` representation, matching the Python counter that is only ever
set to 0 or incremented.) -/
theorem C8_attempts_invariant (ctx : WatchContext) (fetchOuts execOuts : List Outcome)
    (b : Bool) (h : ctx.attempts ≤ ctx.tolerance) :
    (get_context ctx.tolerance ctx.expression ctx.fetches ctx.executes).attempts = 0 ∧
    (watcher_task ctx fetchOuts execOuts).attempts ≤ ctx.tolerance ∧
    (b = false → (watcher_task_step ctx.tolerance ctx.attempts b).1 = 0) ∧
    ((watcher_task_step ctx.tolerance ctx.attempts b).2 = true →
      (watcher_task_step ctx.tolerance ctx.attempts b).1 = 0) := by
  refine ⟨rfl, ?_, ?_, ?_⟩
  · rw [watcher_task_attempts]
    exact watcher_task_step_le _ _ _ h
  · intro hb
    subst hb
    rfl
  · intro hf
    cases b with
    | false => simp [watcher_task_step] at hf
    | true =>
      unfold watcher_task_step at hf ⊢
      by_cases hlt : ctx.attempts < ctx.tolerance
      · simp [hlt] at hf
      · simp [hlt]

/-- C8 witness: tolerance 2, attempts 1, expression `true`. -/
theorem C8_attempts_invariant_witness :
    (get_context ctxC8.tolerance ctxC8.expression ctxC8.fetches ctxC8.executes).attempts = 0 ∧
    (watcher_task ctxC8 [] []).attempts ≤ ctxC8.tolerance ∧
    (true = false → (watcher_task_step ctxC8.tolerance ctxC8.attempts true).1 = 0) ∧
    ((watcher_task_step ctxC8.tolerance ctxC8.attempts true).2 = true →
      (watcher_task_step ctxC8.tolerance ctxC8.attempts true).1 = 0) :=
  C8_attempts_invariant ctxC8 [] [] true (by decide)
/-- C9: against a variables mapping, a variable name absent from the
mapping resolves to the empty set (no error); evaluation over a mapping
never produces an error at all; and in particular `missing == empty`
with an empty mapping evaluates to `true`. -/
theorem C9_missing_variable_empty (m : String → Option (List String))
    (name : String) (e : Comparison) (h : m name = none) :
    vars_get (PyVars.dict m) name = Except.ok ∅ ∧
    evalCalc (PyVars.dict m) (Calc.var name) = Except.ok ∅ ∧
    (∃ b, evaluate (PyVars.dict m) e = Except.ok b) ∧
    evaluate (PyVars.dict (fun _ => none))
      (Comparison.equal (Calc.var ("missing")) Calc.empty) = Except.ok true := by
  refine ⟨?_, ?_, evaluate_dict_ok m e, rfl⟩
  · simp [vars_get, h]
  · simp [evalCalc, vars_get, h]

/-- C9 witness: the empty mapping at name `missing`. -/
theorem C9_missing_variable_empty_witness :
    vars_get (PyVars.dict (fun _ => none)) ("missing") = Except.ok ∅ ∧
    evalCalc (PyVars.dict (fun _ => none)) (Calc.var ("missing")) = Except.ok ∅ ∧
    (∃ b, evaluate (PyVars.dict (fun _ => none))
      (Comparison.equal (Calc.var ("missing")) Calc.empty) = Except.ok b) ∧
    evaluate (PyVars.dict (fun _ => none))
      (Comparison.equal (Calc.var ("missing")) Calc.empty) = Except.ok true :=
  C9_missing_variable_empty (fun _ => none) ("missing")
    (Comparison.equal (Calc.var ("missing")) Calc.empty) rfl

/-- C10: a plugin the tick's runner never reaches keeps its stored
state untouched, and the entry it contributes to the expression's
variables list is that stored result — or `[]` when the stored result is
`None` (never ran, or the last run ended in error); a plugin's record is
overwritten (via `PluginBase.execute`) exactly when the loop invokes
it. -/
theorem C10_skipped_plugin_keeps_state (l : List (PluginState × Outcome))
    (j : Nat) (p : PluginState) :
    ((execute_plugins l)[j]? = some (p, false) →
      (∃ o, l[j]? = some (p, o)) ∧
      (variables_list (run_plugins l))[j]? = some (p.result.getD [])) ∧
    ((execute_plugins l)[j]? = some (p, true) →
      ∃ q, l[j]? = some q ∧ p = executeStep q.2 q.1) := by
  constructor
  · intro h
    refine ⟨by simpa using execute_plugins_state l j p false h, ?_⟩
    simp [variables_list, run_plugins, List.getElem?_map, h]
  · intro h
    simpa using execute_plugins_state l j p true h

/-- C10 witness: the loop stops after the strategy-less first action, so
`pluginStale` is not invoked; its stored result `["old"]` is what the
variables list carries for it. -/
theorem C10_skipped_plugin_keeps_state_witness :
    (∃ o, chainC10[1]? = some (pluginStale, o)) ∧
    (variables_list (run_plugins chainC10))[1]? = some (pluginStale.result.getD []) :=
  (C10_skipped_plugin_keeps_state chainC10 1 pluginStale).1 (by decide)

end DWE
